import Mathlib

/-!
Verification development for the MCP tool-dispatch hub of this repository.

The TypeScript sources are shallowly embedded as executable Lean
definitions: JavaScript records become association lists over a JSON-like
value type, promises and awaits become explicit result values, the
single-threaded event loop of the hub's call queue becomes a small-step
transition system whose events are the synchronous blocks of the source
(the code between two `await`s runs without interleaving), and external
collaborators (backend servers, the LLM, the confirmation UI) become
oracle functions passed as parameters.
-/

namespace McpSpec

/-- JSON-like runtime values, the dynamic `any` of the source. -/
inductive JVal where
  | null
  | bool (b : Bool)
  | num (n : Int)
  | str (s : String)
  | arr (xs : List JVal)
  | obj (fields : List (String × JVal))

/-- First-match association-list lookup (JS object property read;
a key absent from the list is the JS `undefined`). -/
def lookupA {α : Type} (l : List (String × α)) (k : String) : Option α :=
  match l with
  | [] => Option.none
  | (k', v) :: rest => if k' = k then Option.some v else lookupA rest k

/-- JS object update `{...m, k: v}`: an existing key keeps its position,
a new key is appended (JS insertion-order semantics). -/
def rset (m : List (String × JVal)) (k : String) (v : JVal) : List (String × JVal) :=
  match m with
  | [] => [(k, v)]
  | (k', v') :: rest =>
      if k' = k then (k', v) :: rest else (k', v') :: rset rest k v

/-- JS truthiness of a value. Objects and arrays are always truthy. -/
def truthy : JVal → Bool
  | JVal.null => false
  | JVal.bool b => b
  | JVal.num n => !(n = 0)
  | JVal.str s => !(s = "")
  | JVal.arr _ => true
  | JVal.obj _ => true

/-- The ASCII-lowercased code point of a character: `toLowerCase` as the
source applies it before matching its (all-ASCII) keyword and pattern
literals. -/
def lowCode (c : Char) : Nat :=
  if 65 ≤ c.toNat && c.toNat ≤ 90 then c.toNat + 32 else c.toNat

/-- Case-insensitive character equality. -/
def chEqCI (a b : Char) : Bool := lowCode a = lowCode b

/-- Whether the character list `pat` occurs case-insensitively at the
head of `l`. -/
def leadsWithCI : List Char → List Char → Bool
  | [], _ => true
  | _ :: _, [] => false
  | p :: ps, c :: cs => chEqCI p c && leadsWithCI ps cs

/-- Whether the character list `pat` occurs case-insensitively anywhere
inside `l`. -/
def hasSubCI (l pat : List Char) : Bool :=
  match l with
  | [] => leadsWithCI pat []
  | _ :: cs => leadsWithCI pat l || hasSubCI cs pat

/-- Case-insensitive containment: models `/pat/i.test(s)` for a regex
that is a single literal word, and `s.toLowerCase().includes(pat)` for a
lowercase ASCII `pat`. -/
def strHasCI (s pat : String) : Bool :=
  hasSubCI s.data pat.data

/-- One rewriting step of `replaceFirstCI`: try the patterns at the head of
`l`, preferring earlier patterns (JS regex alternation order). -/
def firstPatAt (pats : List String) (l : List Char) : Option String :=
  match pats with
  | [] => Option.none
  | p :: ps => if leadsWithCI p.data l then Option.some p
               else firstPatAt ps l

/-- `s.replace(/p1|p2/i, repl)`: find the leftmost position where one of the
literal alternatives matches case-insensitively (earlier alternative
preferred at a tie), replace that single occurrence, otherwise return `s`
unchanged. -/
def replaceFirstCIAux (pats : List String) (repl : String) : List Char → List Char
  | [] => []
  | c :: cs =>
      match firstPatAt pats (c :: cs) with
      | Option.some p => repl.data ++ (c :: cs).drop p.length
      | Option.none => c :: replaceFirstCIAux pats repl cs

def replaceFirstCI (s : String) (pats : List String) (repl : String) : String :=
  String.mk (replaceFirstCIAux pats repl s.data)

namespace ToolExec

/-! Embedding of `src/packages/api/ai/tool-executor.mts`. -/

/-- `DangerLevel` from `src/unnamed/part_007`. -/
inductive DangerLevel where
  | none | low | medium | high
deriving DecidableEq, Repr

/-- One entry of `inputSchema.properties` (`McpToolSchema`). -/
structure PropSchema where
  type : String
  description : Option String
deriving DecidableEq, Repr

/-- The zod-parsed `inputSchema` of a tool: the literal key `type: 'object'`
is implicit, `properties` is always present after the parse transform,
`required` is optional. -/
structure InputSchema where
  properties : List (String × PropSchema)
  required : Option (List String)
deriving DecidableEq, Repr

/-- `ToolSafetyMetadata` (the two string fields are never read by the
embedded functions and are omitted). -/
structure ToolSafety where
  isDangerous : Option Bool
  dangerLevel : Option DangerLevel
  requiresConfirmation : Option Bool
deriving DecidableEq, Repr

/-- `McpTool`: a parsed tool descriptor. -/
structure McpTool where
  name : String
  description : Option String
  safety : Option ToolSafety
  inputSchema : InputSchema
deriving DecidableEq, Repr

/-- The object the zod parse produced for `inputSchema`, as seen by
`Object.entries(tool.inputSchema)`: keys in shape-declaration order
`type`, `properties`, `required`, an absent optional key omitted. -/
def inputSchemaEntries (s : InputSchema) : List (String × JVal) :=
  [("type", JVal.str "object"),
   ("properties", JVal.obj (s.properties.map (fun p => (p.1, JVal.obj [("type", JVal.str p.2.type)]))))]
  ++ (match s.required with
      | Option.none => []
      | Option.some r => [("required", JVal.arr (r.map JVal.str))])

/-- `ServerContextType`: only the free-form `config` record is read by the
embedded functions. -/
structure ServerContext where
  config : List (String × JVal)

/-- `ConfirmationRequired` of the safety config. A `RegExp` pattern is
embedded as its test predicate. -/
structure ConfirmationRequired where
  dangerLevels : Option (List DangerLevel)
  tools : Option (List String)
  patterns : Option (List (String → Bool))

/-- `ToolSafetyConfig` (the unused `autoFillDefaults` is omitted). -/
structure SafetyConfig where
  dangerousFields : List String
  sensitiveFields : List String
  dangerousKeywords : Option (List String)
  confirmationRequired : Option ConfirmationRequired

/-- `ToolExecutorConfig` after the constructor merged in its defaults. -/
structure ExecConfig where
  maxRetries : Nat
  llmEnabled : Bool
  safetyConfig : Option SafetyConfig

/-- The module-level `DANGEROUS_KEYWORDS` list. -/
def DANGEROUS_KEYWORDS : List String :=
  ["delete", "remove", "drop", "truncate", "push", "write",
   "modify", "update", "alter", "exec", "execute", "format"]

/-- `getAllDangerousOperations()`: the category operations flattened in
declaration order. -/
def getAllDangerousOperations : List String :=
  ["delete", "remove", "drop", "push", "write", "modify"]

/-- The config the `ToolExecutor` constructor builds when the caller
passes no override. -/
def defaultExecConfig : ExecConfig :=
  { maxRetries := 3
    llmEnabled := true
    safetyConfig := Option.some
      { dangerousFields := getAllDangerousOperations
        sensitiveFields := ["owner", "token", "apiKey"]
        dangerousKeywords := Option.none
        confirmationRequired := Option.none } }

/-- The regex literals of `DANGEROUS_OPERATIONS`, as keyword lists. -/
def deletePat : List String := ["delete", "remove", "drop"]
def writePat : List String := ["write", "create", "push"]
def modifyPat : List String := ["modify", "update", "alter"]
def executePat : List String := ["exec", "execute", "run"]
def formatPat : List String := ["format", "clean", "clear"]

/-- `/a|b|c/i.test(s)` for a literal alternation. -/
def testPat (pat : List String) (s : String) : Bool :=
  pat.any (fun w => strHasCI s w)

/-- `OPERATION_TYPES`. -/
inductive OpType where
  | DELETE | WRITE | MODIFY | EXECUTE | FORMAT
deriving DecidableEq, Repr

/-- The if/else-if chain of `captureState` that assigns `state.type`:
first matching pattern in the order DELETE, WRITE, MODIFY, EXECUTE,
FORMAT, defaulting to MODIFY. -/
def classifyOp (toolName : String) : OpType :=
  if testPat deletePat toolName then OpType.DELETE
  else if testPat writePat toolName then OpType.WRITE
  else if testPat modifyPat toolName then OpType.MODIFY
  else if testPat executePat toolName then OpType.EXECUTE
  else if testPat formatPat toolName then OpType.FORMAT
  else OpType.MODIFY

/-- The per-server tool-schema cache `toolSchemas`. -/
def Schemas : Type := List (String × List (String × McpTool))

/-- `getToolSchema`. -/
def getToolSchema (schemas : Schemas) (serverName toolName : String) : Option McpTool :=
  match lookupA schemas serverName with
  | Option.none => Option.none
  | Option.some tools => lookupA tools toolName

/-- `getServerDefault`: tool-specific default `config[toolName][field]`
first, then the server-wide default `config[field]`. A `config[toolName]`
that is not an object has no (relevant) properties. -/
def getServerDefault (ctxs : List (String × ServerContext))
    (serverName toolName field : String) : Option JVal :=
  match lookupA ctxs serverName with
  | Option.none => Option.none
  | Option.some ctx =>
      let fromTool : Option JVal :=
        match lookupA ctx.config toolName with
        | Option.some (JVal.obj td) => lookupA td field
        | _ => Option.none
      match fromTool with
      | Option.some v => Option.some v
      | Option.none => lookupA ctx.config field

/-- Result record of `validateAndEnrichArguments` (its `error` field is
never assigned by the source and is omitted). -/
structure ValidationOutcome where
  valid : Bool
  enrichedArgs : List (String × JVal)
  missingFields : Option (List String)

/-- `validateAndEnrichArguments`: iterates
`Object.entries(tool.inputSchema)` — i.e. the keys of the schema object
itself (`type`, `properties`, `required`), NOT the field names listed in
`inputSchema.required`. For each such key absent from the arguments it
looks up a server default and otherwise records the key as missing
(the entry value is always truthy, so the `if (schema)` guard always
holds). -/
def validateAndEnrichArguments (ctxs : List (String × ServerContext))
    (serverName : String) (tool : McpTool) (args : List (String × JVal)) :
    ValidationOutcome :=
  let r := (inputSchemaEntries tool.inputSchema).foldl
    (fun (acc : List (String × JVal) × List String) e =>
      if (lookupA acc.1 e.1).isSome then acc
      else match getServerDefault ctxs serverName tool.name e.1 with
        | Option.some v => (rset acc.1 e.1 v, acc.2)
        | Option.none =>
            if truthy e.2 then (acc.1, acc.2 ++ [e.1]) else acc)
    (args, [])
  { valid := r.2.isEmpty
    enrichedArgs := r.1
    missingFields := if r.2.isEmpty then Option.none else Option.some r.2 }

/-- `isDangerousTool`. -/
def isDangerousTool (cfg : ExecConfig) (tool : McpTool) : Bool :=
  -- explicit safety metadata: `tool.safety?.isDangerous` truthy
  (match tool.safety with
   | Option.some s => s.isDangerous = Option.some true
   | Option.none => false) ||
  -- `tool.safety?.dangerLevel && dangerLevel !== 'none'`
  (match tool.safety with
   | Option.some s =>
       match s.dangerLevel with
       | Option.some l => !(l = DangerLevel.none)
       | Option.none => false
   | Option.none => false) ||
  -- dangerous keywords against the lowercased name
  (let kws := DANGEROUS_KEYWORDS ++
       (match cfg.safetyConfig with
        | Option.some sc => sc.dangerousKeywords.getD []
        | Option.none => [])
   kws.any (fun k => strHasCI tool.name k)) ||
  -- any required field listed in the safety config's dangerousFields
  ((tool.inputSchema.required.getD []).any (fun f =>
     match cfg.safetyConfig with
     | Option.some sc => sc.dangerousFields.contains f
     | Option.none => false))

/-- `getToolDangerLevel`. Note `if (tool.safety?.dangerLevel)` is a
truthiness test on a nonempty string, so any explicitly set level —
including `'none'` — is returned as-is. -/
def getToolDangerLevel (cfg : ExecConfig) (tool : McpTool) : DangerLevel :=
  match (match tool.safety with
         | Option.some s => s.dangerLevel
         | Option.none => Option.none) with
  | Option.some l => l
  | Option.none =>
      if isDangerousTool cfg tool then
        if testPat deletePat tool.name then DangerLevel.high
        else if testPat modifyPat tool.name || testPat executePat tool.name then
          DangerLevel.medium
        else DangerLevel.low
      else DangerLevel.none

/-- `requiresConfirmation`. -/
def requiresConfirmation (cfg : ExecConfig) (schemas : Schemas)
    (serverName toolName : String) : Bool :=
  match getToolSchema schemas serverName toolName with
  | Option.none => false
  | Option.some tool =>
      -- `tool.safety?.requiresConfirmation !== undefined` (exact check)
      match (match tool.safety with
             | Option.some s => s.requiresConfirmation
             | Option.none => Option.none) with
      | Option.some b => b
      | Option.none =>
          let dl := getToolDangerLevel cfg tool
          let levels := match cfg.safetyConfig with
            | Option.some sc =>
                match sc.confirmationRequired with
                | Option.some cr => cr.dangerLevels.getD []
                | Option.none => []
            | Option.none => []
          if levels.contains dl then true
          else
            let pats : List (String → Bool) := match cfg.safetyConfig with
              | Option.some sc =>
                  match sc.confirmationRequired with
                  | Option.some cr => cr.patterns.getD []
                  | Option.none => []
              | Option.none => []
            if pats.any (fun p => p toolName) then true
            else
              let tools := match cfg.safetyConfig with
                | Option.some sc =>
                    match sc.confirmationRequired with
                    | Option.some cr => cr.tools.getD []
                    | Option.none => []
                | Option.none => []
              if tools.contains toolName then true
              else isDangerousTool cfg tool

/-- One `tools/call` RPC handed to the hub (`mcpHub.callTool`). -/
structure Rpc where
  serverName : String
  toolName : String
  args : List (String × JVal)

/-- The backend oracle: what `mcpHub.callTool` resolves or rejects with. -/
def Hub : Type := String → String → List (String × JVal) → Except String JVal

/-- `OperationState` captured for a dangerous call. -/
structure OperationState where
  type : OpType
  serverName : String
  toolName : String
  args : List (String × JVal)
  previousState : Option JVal

/-- `captureState`: classify the operation; for DELETE and MODIFY types
issue a best-effort probe `callTool(server, toolName.replace(/delete|modify/i,'get'),
{...args, mode:'read'})` whose failure is caught and yields `undefined`
(no captured state). Returns the state and the RPCs sent. -/
def captureState (schemas : Schemas) (hub : Hub)
    (serverName toolName : String) (args : List (String × JVal)) :
    Option OperationState × List Rpc :=
  let ty := classifyOp toolName
  let base : OperationState :=
    { type := ty, serverName := serverName, toolName := toolName
      args := args, previousState := Option.none }
  if ty = OpType.DELETE || ty = OpType.MODIFY then
    match getToolSchema schemas serverName toolName with
    | Option.some _ =>
        let probeName := replaceFirstCI toolName ["delete", "modify"] "get"
        let probeArgs := rset args "mode" (JVal.str "read")
        let rpc : Rpc := { serverName := serverName, toolName := probeName, args := probeArgs }
        match hub serverName probeName probeArgs with
        | Except.ok v => (Option.some { base with previousState := Option.some v }, [rpc])
        | Except.error _ => (Option.none, [rpc])
    | Option.none => (Option.some base, [])
  else (Option.some base, [])

/-- `RollbackResult`. -/
structure RollbackResult where
  success : Bool
  error : Option String

/-- `rollback(state)`: with no captured previous state it fails; for
DELETE it re-creates via the `delete|remove → create` paired tool with
`{...args, data: previousState}`, for MODIFY it restores via
`write|modify → restore` with `{...args, content: previousState}`; the
paired call only happens when the paired tool exists in the catalog, and
its failure is caught into the result. Returns the result and the RPCs
sent. -/
def rollbackOp (schemas : Schemas) (hub : Hub) (st : OperationState) :
    RollbackResult × List Rpc :=
  match st.previousState with
  | Option.none =>
      ({ success := false, error := Option.some "No previous state available for rollback" }, [])
  | Option.some prev =>
      match st.type with
      | OpType.DELETE =>
          let createTool := replaceFirstCI st.toolName ["delete", "remove"] "create"
          if (getToolSchema schemas st.serverName createTool).isSome then
            let rargs := rset st.args "data" prev
            let rpc : Rpc := { serverName := st.serverName, toolName := createTool, args := rargs }
            match hub st.serverName createTool rargs with
            | Except.ok _ => ({ success := true, error := Option.none }, [rpc])
            | Except.error e => ({ success := false, error := Option.some e }, [rpc])
          else ({ success := true, error := Option.none }, [])
      | OpType.MODIFY =>
          let restoreTool := replaceFirstCI st.toolName ["write", "modify"] "restore"
          if (getToolSchema schemas st.serverName restoreTool).isSome then
            let rargs := rset st.args "content" prev
            let rpc : Rpc := { serverName := st.serverName, toolName := restoreTool, args := rargs }
            match hub st.serverName restoreTool rargs with
            | Except.ok _ => ({ success := true, error := Option.none }, [rpc])
            | Except.error e => ({ success := false, error := Option.some e }, [rpc])
          else ({ success := true, error := Option.none }, [])
      | _ => ({ success := true, error := Option.none }, [])

/-- `LLMPromptContext`. -/
structure LLMField where
  name : String
  type : String
  description : Option String

structure LLMPromptContext where
  serverName : String
  toolName : String
  missingFields : List LLMField
  currentArgs : List (String × JVal)
  attemptCount : Nat

/-- `LLMPromptResult`: the outcome of `promptLLM`, abstracted as an oracle
(its internals — the `generateText` call, JSON parsing, re-validation,
and deterministic fallbacks — only shape this record). -/
structure LLMPromptResult where
  providedValues : List (String × JVal)
  shouldPromptUser : Bool
  userPrompt : Option String

/-- The environment of one `ToolExecutor`: its config, schema cache,
server contexts, and the three external collaborators. -/
structure ExecEnv where
  cfg : ExecConfig
  schemas : Schemas
  ctxs : List (String × ServerContext)
  hub : Hub
  confirm : String → String → List (String × JVal) → Bool
  llm : LLMPromptContext → LLMPromptResult

/-- `ToolExecutionResult`. -/
structure ExecResult where
  success : Bool
  data : Option JVal
  error : Option String
  missingFields : Option (List String)
  rollbackError : Option String

/-- `{...currentArgs, ...providedValues}`. -/
def mergeArgs (cur provided : List (String × JVal)) : List (String × JVal) :=
  provided.foldl (fun m kv => rset m kv.1 kv.2) cur

/-- The `while (attempts < maxRetries)` loop of `executeTool`; `fuel` is
the number of remaining iterations (`maxRetries - attempts`). The hook is
only consulted when confirmation is required; as a pure oracle the guarded
call is written as a boolean conjunction. Alongside the result, the list
of every RPC handed to the hub during the invocation is returned. -/
def executeToolGo (env : ExecEnv) (serverName toolName : String) :
    Nat → Nat → List (String × JVal) → Option OperationState → ExecResult × List Rpc
  | 0, attempts, _, _ =>
      ({ success := false, data := Option.none
         error := Option.some ("Failed after " ++ toString attempts ++ " attempts")
         missingFields := Option.none, rollbackError := Option.none }, [])
  | fuel + 1, attempts, currentArgs, opState0 =>
      match getToolSchema env.schemas serverName toolName with
      | Option.none =>
          ({ success := false, data := Option.none
             error := Option.some ("Tool not found: " ++ serverName ++ "/" ++ toolName)
             missingFields := Option.none, rollbackError := Option.none }, [])
      | Option.some tool =>
          -- dangerous operations capture state BEFORE the confirmation check
          let cap : Option OperationState × List Rpc :=
            if isDangerousTool env.cfg tool
            then captureState env.schemas env.hub serverName toolName currentArgs
            else (opState0, [])
          let opState := cap.1
          let captureRpcs := cap.2
          if requiresConfirmation env.cfg env.schemas serverName toolName
             && !(env.confirm serverName toolName currentArgs) then
            ({ success := false, data := Option.none
               error := Option.some "User denied dangerous operation"
               missingFields := Option.none, rollbackError := Option.none }, captureRpcs)
          else
            let vr := validateAndEnrichArguments env.ctxs serverName tool currentArgs
            if !vr.valid then
              -- the outcome's `error` field is never set by the source, so
              -- the `if (error)` early return is unreachable
              if env.cfg.llmEnabled && vr.missingFields.isSome then
                let missing := vr.missingFields.getD []
                let pc : LLMPromptContext :=
                  { serverName := serverName, toolName := toolName
                    missingFields := missing.map (fun f =>
                      { name := f
                        type := match lookupA tool.inputSchema.properties f with
                          | Option.some p => p.type
                          | Option.none => "unknown"
                        description := match lookupA tool.inputSchema.properties f with
                          | Option.some p => p.description
                          | Option.none => Option.none })
                    currentArgs := currentArgs, attemptCount := attempts }
                let lr := env.llm pc
                if lr.shouldPromptUser then
                  ({ success := false, data := Option.none
                     error := Option.some (lr.userPrompt.getD "User input required for missing fields")
                     missingFields := vr.missingFields, rollbackError := Option.none }, captureRpcs)
                else
                  let merged := mergeArgs currentArgs lr.providedValues
                  let rec_ := executeToolGo env serverName toolName fuel (attempts + 1) merged opState
                  (rec_.1, captureRpcs ++ rec_.2)
              else
                ({ success := false, data := Option.none
                   error := Option.some ("Missing required fields: "
                     ++ String.intercalate ", " (vr.missingFields.getD []))
                   missingFields := vr.missingFields, rollbackError := Option.none }, captureRpcs)
            else
              let rpc : Rpc := { serverName := serverName, toolName := toolName, args := vr.enrichedArgs }
              match env.hub serverName toolName vr.enrichedArgs with
              | Except.ok v =>
                  ({ success := true, data := Option.some v
                     error := Option.none, missingFields := Option.none
                     rollbackError := Option.none }, captureRpcs ++ [rpc])
              | Except.error e =>
                  match opState with
                  | Option.some st =>
                      let rb := rollbackOp env.schemas env.hub st
                      ({ success := false, data := Option.none
                         error := Option.some e, missingFields := Option.none
                         rollbackError := if rb.1.success then Option.none else rb.1.error },
                       captureRpcs ++ [rpc] ++ rb.2)
                  | Option.none =>
                      ({ success := false, data := Option.none
                         error := Option.some e, missingFields := Option.none
                         rollbackError := Option.none }, captureRpcs ++ [rpc])

/-- `executeTool({serverName, toolName, arguments})`. -/
def executeTool (env : ExecEnv) (serverName toolName : String)
    (args : List (String × JVal)) : ExecResult × List Rpc :=
  executeToolGo env serverName toolName env.cfg.maxRetries 0 args Option.none

/-- The base class's `getUserConfirmation`: logs a warning and returns
`false` — dangerous operations are rejected unless a subclass overrides
the hook. -/
def defaultGetUserConfirmation : String → String → List (String × JVal) → Bool :=
  fun _ _ _ => false

end ToolExec

namespace HubQueue

/-!
Embedding of `MCPHub.enqueueToolCall` / `processNextToolCall`
(`src/unnamed/part_006`, lines 319-386) as a small-step transition system.

The JavaScript runs on a single-threaded event loop, so the code between
two `await`s executes atomically. Two such blocks touch the queue state:

* `enqueueToolCall`: the admission check against
  `MAX_CONCURRENT_OPERATIONS`, the push onto the per-server queue, and —
  when the queue was empty — the synchronous head of
  `processNextToolCall` up to and including `activeOperationCount++` and
  the dispatch of `client.callTool`.
* the `finally` guard that runs when a dispatched call settles:
  `activeOperationCount--`, `queue.shift()`, and — when the queue is
  still nonempty — the synchronous head of the recursive
  `processNextToolCall`, which increments the counter and dispatches the
  next call.

These two blocks are the `enq` and `fin` events below. The fields
`accepted`, `dispatched` and `inflight` are history variables recording,
for the theorems, the order in which enqueues were accepted, the order in
which calls were handed to `client.callTool`, and the dispatched calls
that have not yet settled (per server this is exactly the queue head, an
invariant proved below). The model covers servers whose connection
exists; the `if (!conn)` rejection path dispatches nothing and is outside
the claims' scope.
-/

/-- A queued tool call (`{toolId, params}`; the promise callbacks carry
no state). -/
structure QCall where
  toolId : String
  params : List (String × JVal)

def MAX_CONCURRENT_OPERATIONS : Nat := 5

structure HubState where
  queues : String → List QCall
  active : Nat
  accepted : List (String × QCall)
  dispatched : List (String × QCall)
  inflight : List (String × QCall)

/-- The initial hub: no queues, counter zero. -/
def hubInit : HubState :=
  { queues := fun _ => [], active := 0, accepted := [], dispatched := [], inflight := [] }

inductive EnqOutcome where
  | accepted
  | overloaded
deriving DecidableEq, Repr

/-- `enqueueToolCall`: fast-fail with the overloaded error when
`activeOperationCount >= MAX_CONCURRENT_OPERATIONS`, touching nothing;
otherwise push the call, and when the queue was empty dispatch it at once
(the synchronous head of `processNextToolCall`). -/
def enqueueToolCall (hs : HubState) (s : String) (c : QCall) : HubState × EnqOutcome :=
  if MAX_CONCURRENT_OPERATIONS ≤ hs.active then (hs, EnqOutcome.overloaded)
  else
    let q := hs.queues s
    let hs1 : HubState :=
      { hs with
        queues := fun t => if t = s then q ++ [c] else hs.queues t
        accepted := hs.accepted ++ [(s, c)] }
    if q.isEmpty then
      ({ hs1 with
         active := hs1.active + 1
         dispatched := hs1.dispatched ++ [(s, c)]
         inflight := hs1.inflight ++ [(s, c)] }, EnqOutcome.accepted)
    else (hs1, EnqOutcome.accepted)

/-- The `finally` guard of `processNextToolCall` once the in-flight call
on server `s` settles: decrement the counter, shift the queue, and when a
call remains dispatch it (which increments the counter again). -/
def finishCall (hs : HubState) (s : String) : HubState :=
  match hs.queues s with
  | [] => hs
  | _ :: rest =>
      let hs1 : HubState :=
        { hs with
          active := hs.active - 1
          queues := fun t => if t = s then rest else hs.queues t
          inflight := hs.inflight.filter (fun p => !(p.1 = s)) }
      match rest with
      | [] => hs1
      | r :: _ =>
          { hs1 with
            active := hs1.active + 1
            dispatched := hs1.dispatched ++ [(s, r)]
            inflight := hs1.inflight ++ [(s, r)] }

/-- One atomic event of the hub. -/
inductive HubStep : HubState → HubState → Prop
  | enq (hs : HubState) (s : String) (c : QCall) : HubStep hs (enqueueToolCall hs s c).1
  | fin (hs : HubState) (s : String) : hs.queues s ≠ [] → HubStep hs (finishCall hs s)

/-- Reachable hub states. -/
inductive HubReach : HubState → Prop
  | init : HubReach hubInit
  | step {a b : HubState} : HubReach a → HubStep a b → HubReach b

/-- The calls of server `s` in a history list. -/
def perServer (s : String) (l : List (String × QCall)) : List (String × QCall) :=
  l.filter (fun p => p.1 = s)

/-- The inductive hub invariant: the admission cap holds, the counter
counts exactly the in-flight calls, per server the in-flight calls are
exactly the queue head, and per server the accepted order is the
dispatched order followed by the still-queued tail. -/
structure HubInv (hs : HubState) : Prop where
  activeLe : hs.active ≤ MAX_CONCURRENT_OPERATIONS
  activeEq : hs.active = hs.inflight.length
  inflightHead : ∀ s, perServer s hs.inflight = ((hs.queues s).take 1).map (fun c => (s, c))
  fifo : ∀ s, perServer s hs.accepted
           = perServer s hs.dispatched ++ ((hs.queues s).drop 1).map (fun c => (s, c))

theorem perServer_nil (s : String) : perServer s [] = [] := rfl

theorem perServer_cons (t : String) (a : String × QCall) (l : List (String × QCall)) :
    perServer t (a :: l) = if a.1 = t then a :: perServer t l else perServer t l := by
  by_cases h : a.1 = t <;> simp [perServer, List.filter_cons, h]

theorem perServer_append (s : String) (l m : List (String × QCall)) :
    perServer s (l ++ m) = perServer s l ++ perServer s m := by
  simp [perServer, List.filter_append]

theorem perServer_single_self (s : String) (c : QCall) :
    perServer s [(s, c)] = [(s, c)] := by
  simp [perServer]

theorem perServer_single_other {t s : String} (hts : t ≠ s) (c : QCall) :
    perServer t [(s, c)] = [] := by
  simp [perServer, Ne.symm hts]

theorem perServer_filter_self (s : String) (l : List (String × QCall)) :
    perServer s (l.filter (fun p => !(p.1 = s))) = [] := by
  induction l with
  | nil => rfl
  | cons a t ih =>
      by_cases h : a.1 = s
      · simp [List.filter_cons, h, ih, perServer_cons]
      · simp [List.filter_cons, h, ih, perServer_cons]

theorem perServer_filter_other {t s : String} (h : t ≠ s)
    (l : List (String × QCall)) :
    perServer t (l.filter (fun p => !(p.1 = s))) = perServer t l := by
  have hst : ¬(s = t) := fun hh => h hh.symm
  induction l with
  | nil => rfl
  | cons a rest ih =>
      by_cases hs' : a.1 = s
      · simp [List.filter_cons, hs', hst, ih, perServer_cons]
      · by_cases ht : a.1 = t
        · simp [List.filter_cons, hs', ht, ih, perServer_cons, h]
        · simp [List.filter_cons, hs', ht, ih, perServer_cons]

theorem length_perServer_split (s : String) (l : List (String × QCall)) :
    l.length = (perServer s l).length + (l.filter (fun p => !(p.1 = s))).length := by
  induction l with
  | nil => rfl
  | cons a t ih =>
      by_cases h : a.1 = s
      · simp [List.filter_cons, h, perServer_cons]; omega
      · simp [List.filter_cons, h, perServer_cons]; omega

theorem hubInv_init : HubInv hubInit := by
  refine ⟨?_, ?_, ?_, ?_⟩ <;> simp [hubInit, perServer, MAX_CONCURRENT_OPERATIONS]

theorem hubInv_enq (hs : HubState) (s : String) (c : QCall) (h : HubInv hs) :
    HubInv (enqueueToolCall hs s c).1 := by
  unfold enqueueToolCall
  by_cases hcap : MAX_CONCURRENT_OPERATIONS ≤ hs.active
  · rw [if_pos hcap]; exact h
  · rw [if_neg hcap]
    dsimp only
    by_cases hq : (hs.queues s).isEmpty
    · have hqe : hs.queues s = [] := List.isEmpty_iff.mp hq
      rw [if_pos hq]
      refine ⟨?_, ?_, ?_, ?_⟩
      · show hs.active + 1 ≤ 5
        have h5 : hs.active ≤ 5 := h.activeLe
        have hlt : ¬(5 ≤ hs.active) := hcap
        omega
      · show hs.active + 1 = (hs.inflight ++ [(s, c)]).length
        rw [List.length_append, h.activeEq]
        rfl
      · intro t
        dsimp only
        by_cases hts : t = s
        · subst hts
          rw [if_pos rfl, perServer_append, perServer_single_self, hqe]
          have h1 := h.inflightHead t
          rw [hqe] at h1
          simp only [List.take_nil, List.map_nil] at h1
          rw [h1]
          simp
        · rw [if_neg hts, perServer_append, perServer_single_other hts, List.append_nil]
          exact h.inflightHead t
      · intro t
        dsimp only
        by_cases hts : t = s
        · subst hts
          rw [if_pos rfl, perServer_append, perServer_append, perServer_single_self, hqe]
          have h1 := h.fifo t
          rw [hqe] at h1
          simp only [List.drop_nil, List.map_nil, List.append_nil] at h1
          rw [h1]
          simp
        · rw [if_neg hts, perServer_append, perServer_append,
              perServer_single_other hts, List.append_nil, List.append_nil]
          exact h.fifo t
    · rw [if_neg hq]
      have hqe : hs.queues s ≠ [] := fun hh => hq (by rw [hh]; rfl)
      obtain ⟨a, q, hq2⟩ : ∃ a q, hs.queues s = a :: q :=
        match hs.queues s, hqe with
        | x :: xs, _ => ⟨x, xs, rfl⟩
      refine ⟨h.activeLe, h.activeEq, ?_, ?_⟩
      · intro t
        dsimp only
        by_cases hts : t = s
        · subst hts
          rw [if_pos rfl, hq2]
          have h1 := h.inflightHead t
          rw [hq2] at h1
          simpa using h1
        · rw [if_neg hts]
          exact h.inflightHead t
      · intro t
        dsimp only
        by_cases hts : t = s
        · subst hts
          rw [if_pos rfl, perServer_append, perServer_single_self, hq2]
          have h1 := h.fifo t
          rw [hq2] at h1
          simp only [List.drop_one, List.tail_cons] at h1
          rw [h1]
          simp
        · rw [if_neg hts, perServer_append, perServer_single_other hts, List.append_nil]
          exact h.fifo t

theorem hubInv_fin (hs : HubState) (s : String) (h : HubInv hs) :
    HubInv (finishCall hs s) := by
  unfold finishCall
  cases hq : hs.queues s with
  | nil => exact h
  | cons c rest =>
      have hinfS : perServer s hs.inflight = [(s, c)] := by
        have h1 := h.inflightHead s
        rw [hq] at h1
        simpa using h1
      have hsplit := length_perServer_split s hs.inflight
      have hlen1 : (perServer s hs.inflight).length = 1 := by rw [hinfS]; rfl
      have hactive : hs.active = hs.inflight.length := h.activeEq
      have h5 : hs.active ≤ 5 := h.activeLe
      cases rest with
      | nil =>
          refine ⟨?_, ?_, ?_, ?_⟩
          · show hs.active - 1 ≤ 5
            omega
          · show hs.active - 1 = (hs.inflight.filter (fun p => !(p.1 = s))).length
            omega
          · intro t
            dsimp only
            by_cases hts : t = s
            · subst hts
              rw [if_pos rfl, perServer_filter_self]
              simp
            · rw [if_neg hts, perServer_filter_other hts]
              exact h.inflightHead t
          · intro t
            dsimp only
            by_cases hts : t = s
            · subst hts
              rw [if_pos rfl]
              have h1 := h.fifo t
              rw [hq] at h1
              simpa using h1
            · rw [if_neg hts]
              exact h.fifo t
      | cons r rs =>
          refine ⟨?_, ?_, ?_, ?_⟩
          · show hs.active - 1 + 1 ≤ 5
            omega
          · show hs.active - 1 + 1
                = (hs.inflight.filter (fun p => !(p.1 = s)) ++ [(s, r)]).length
            rw [List.length_append]
            simp only [List.length_cons, List.length_nil]
            omega
          · intro t
            dsimp only
            by_cases hts : t = s
            · subst hts
              rw [if_pos rfl, perServer_append, perServer_filter_self, perServer_single_self]
              simp
            · rw [if_neg hts, perServer_append, perServer_filter_other hts,
                  perServer_single_other hts, List.append_nil]
              exact h.inflightHead t
          · intro t
            dsimp only
            by_cases hts : t = s
            · subst hts
              rw [if_pos rfl, perServer_append, perServer_single_self]
              have h1 := h.fifo t
              rw [hq] at h1
              simp only [List.drop_one, List.tail_cons] at h1 ⊢
              rw [h1]
              simp
            · rw [if_neg hts, perServer_append, perServer_single_other hts, List.append_nil]
              exact h.fifo t

theorem hubInv_reach {hs : HubState} (h : HubReach hs) : HubInv hs := by
  induction h with
  | init => exact hubInv_init
  | step _ st ih =>
      cases st with
      | enq s c => exact hubInv_enq _ s c ih
      | fin s hne => exact hubInv_fin _ s ih

end HubQueue

namespace Retry

/-!
Embedding of `MCPHub.ensureConnection` (`src/unnamed/part_006`, lines
125-143) and `MCPHub.reconnectServer` (lines 585-591) for one server.
The outcome of a `connectServer` attempt (an external process spawn and
handshake) is abstracted by the boolean `connectOk`.
-/

def MAX_RETRY_ATTEMPTS : Nat := 3

/-- Per-server supervisor state: whether the connection's `status` is
`'connected'`, and `connectionRetryAttempts.get(name) || 0`. -/
structure RetryState where
  connected : Bool
  retryCount : Nat
deriving DecidableEq, Repr

inductive ConnError where
  | maxRetriesExceeded
  | configMissing
  | connectFailed
deriving DecidableEq, Repr

/-- `ensureConnection(name)`: return at once when already connected;
throw `MaxRetriesExceeded` when the retry count has reached the cap;
otherwise attempt `connectServer` — success resets the counter to zero
and marks the connection connected, failure increments the counter and
rethrows. -/
def ensureConnection (st : RetryState) (connectOk : Bool) :
    RetryState × Option ConnError :=
  if st.connected then (st, Option.none)
  else if MAX_RETRY_ATTEMPTS ≤ st.retryCount then
    (st, Option.some ConnError.maxRetriesExceeded)
  else if connectOk then
    ({ connected := true, retryCount := 0 }, Option.none)
  else
    ({ st with retryCount := st.retryCount + 1 }, Option.some ConnError.connectFailed)

/-- `reconnectServer(name)`: throw when the server has no configuration,
otherwise simply delegate to `ensureConnection` — the retry counter is
not touched. -/
def reconnectServer (hasConfig : Bool) (st : RetryState) (connectOk : Bool) :
    RetryState × Option ConnError :=
  if hasConfig then ensureConnection st connectOk
  else (st, Option.some ConnError.configMissing)

end Retry

namespace ConnLife

/-!
Embedding of `MCPHub.connectServer` (`src/unnamed/part_006`, lines
216-277) as the sequence of `(status, capabilities)` snapshots the
connection object passes through, in program order. `connectOk`
abstracts whether `client.connect(transport)` wins its race against the
connection timeout; `initReply` abstracts the `initialize` request:
`none` when the request throws, `some caps` when it returns a reply
whose advertised capabilities coerce (via `!!`) to `caps` (the result
schema always carries a `capabilities` record). The catalog population
via `tools/list` that follows mutates neither field (its failure is
caught locally).
-/

inductive ConnStatus where
  | connecting
  | connected
  | disconnected
deriving DecidableEq, Repr

/-- `ServerCapabilities` after the `!!` coercion applied on record. -/
structure Caps where
  tools : Bool
  resources : Bool
  resourceTemplates : Bool
deriving DecidableEq, Repr

/-- The freshly created connection's `capabilities: {}`. -/
def emptyCaps : Caps := { tools := false, resources := false, resourceTemplates := false }

structure ConnSnap where
  status : ConnStatus
  capabilities : Caps
deriving DecidableEq, Repr

/-- The `(status, capabilities)` snapshots of one `connectServer` run:
the connection is created `connecting` with empty capabilities; when the
transport connect fails the catch marks it `disconnected`; when it
succeeds the status is set to `connected` BEFORE the `initialize`
request; a successful `initialize` then records the advertised
capabilities; a failing one marks the connection `disconnected`. -/
def connectServerTrace (connectOk : Bool) (initReply : Option Caps) : List ConnSnap :=
  let s0 : ConnSnap := { status := ConnStatus.connecting, capabilities := emptyCaps }
  if connectOk then
    let s1 : ConnSnap := { status := ConnStatus.connected, capabilities := emptyCaps }
    match initReply with
    | Option.some caps =>
        [s0, s1, { status := ConnStatus.connected, capabilities := caps }]
    | Option.none =>
        [s0, s1, { status := ConnStatus.disconnected, capabilities := emptyCaps }]
  else
    [s0, { status := ConnStatus.disconnected, capabilities := emptyCaps }]

end ConnLife

namespace Comp

/-!
Embedding of `src/packages/api/mcp/composition/executor.mts` and
`composition/types.mts`. The hub is the same oracle type as for the tool
executor. The zod `inputSchema.parse` of the composed tool's parameters,
the execution-id bookkeeping and the wall-clock timestamps are outside
the modeled state; `executeComposed` models the step engine from after a
successful parameter parse.
-/

/-- A `ParamReference`'s `source`. -/
inductive PSource where
  | param (path : String)
  | output (stepName : String) (path : String)
deriving DecidableEq, Repr

/-- A step-input value: a literal string or a `ParamReference`. -/
inductive PValue where
  | lit (s : String)
  | ref (src : PSource)
deriving DecidableEq, Repr

/-- A step's `rollback` spec. -/
structure RollbackSpec where
  server : String
  tool : String
  input : List (String × PValue)
deriving DecidableEq, Repr

inductive CondType where
  | success | failure | expression
deriving DecidableEq, Repr

structure StepCondition where
  type : CondType
  stepName : Option String
  expression : Option String
deriving DecidableEq, Repr

/-- `ToolStep`. -/
structure ToolStep where
  name : String
  server : String
  tool : String
  input : List (String × PValue)
  output : Option String
  condition : Option StepCondition
  rollback : Option RollbackSpec
deriving Repr

/-- `ComposedTool` (its schemas and metadata are not read by the step
engine or the validator). -/
structure ComposedTool where
  name : String
  steps : List ToolStep
deriving Repr

inductive StepStatus where
  | pending | running | success | failed | skipped
deriving DecidableEq, Repr

/-- `StepState`. -/
structure StepState where
  stepName : String
  status : StepStatus
  outputs : List (String × JVal)
  error : Option String

/-- `RollbackOperation` (its `originalStep` back-pointer is never read by
`performRollback`). -/
structure RollbackOperation where
  server : String
  tool : String
  params : List (String × JVal)

/-- `getNestedValue(obj, path)`: reduce over the dotted path; only
objects (and arrays, via a numeric key) can be descended into. -/
def getNested : JVal → List String → Option JVal
  | v, [] => Option.some v
  | JVal.obj fs, k :: ks =>
      (match lookupA fs k with
       | Option.some v => getNested v ks
       | Option.none => Option.none)
  | JVal.arr xs, k :: ks =>
      (match k.toNat? with
       | Option.some i =>
           (match xs.get? i with
            | Option.some v => getNested v ks
            | Option.none => Option.none)
       | Option.none => Option.none)
  | _, _ :: _ => Option.none

/-- `resolveParameters`: substitute each entry in input order; a `param`
reference resolving to `undefined` stores no value under the key, an
`output` reference throws when the referenced step is unknown, not
successful, or lacks the named output. -/
def resolveParams (params : JVal) (steps : List StepState) :
    List (String × PValue) → Except String (List (String × JVal))
  | [] => Except.ok []
  | (k, PValue.lit s) :: rest =>
      (resolveParams params steps rest).map (fun r => (k, JVal.str s) :: r)
  | (k, PValue.ref (PSource.param path)) :: rest =>
      (resolveParams params steps rest).map (fun r =>
        match getNested params (path.splitOn ".") with
        | Option.some v => (k, v) :: r
        | Option.none => r)
  | (k, PValue.ref (PSource.output stepName path)) :: rest =>
      match steps.find? (fun st => st.stepName = stepName) with
      | Option.none => Except.error ("Referenced step '" ++ stepName ++ "' not found")
      | Option.some st =>
          if !(st.status = StepStatus.success) then
            Except.error ("Referenced step '" ++ stepName ++ "' has not completed successfully")
          else
            match lookupA st.outputs path with
            | Option.none =>
                Except.error ("Output '" ++ path ++ "' not found in step '" ++ stepName ++ "'")
            | Option.some out =>
                (resolveParams params steps rest).map (fun r => (k, out) :: r)

/-- `evaluateCondition`: no `stepName` means true; an unknown referenced
step throws; `success`/`failure` compare that step's status; the
`expression` evaluator is unimplemented and returns true. -/
def evaluateCondition (steps : List StepState) (c : StepCondition) :
    Except String Bool :=
  match c.stepName with
  | Option.none => Except.ok true
  | Option.some sn =>
      match steps.find? (fun st => st.stepName = sn) with
      | Option.none => Except.error ("Referenced step '" ++ sn ++ "' not found")
      | Option.some st =>
          match c.type with
          | CondType.success => Except.ok (st.status = StepStatus.success)
          | CondType.failure => Except.ok (st.status = StepStatus.failed)
          | CondType.expression => Except.ok true

/-- Overwrite the `i`-th step state. -/
def setSt (states : List StepState) (i : Nat) (f : StepState → StepState) :
    List StepState :=
  match states.get? i with
  | Option.some st => states.set i (f st)
  | Option.none => states

/-- The step loop of `executeTool`: walk the remaining steps (the `i`-th
onward), threading the full step-state list and the rollback stack.
Returns the final states, the stack, and the thrown error if any. A
condition that evaluates to false marks the step `skipped`; a throw
during condition evaluation propagates with the step still `pending`; a
failed resolution or call marks the step `failed` and stops; after a
successful call the step is marked `success`, its output stored, and its
rollback operation — with parameters resolved against the updated state —
pushed, a throw during that resolution marking the already-successful
step `failed` and stopping. -/
def runSteps (hub : ToolExec.Hub) (params : JVal) :
    List ToolStep → Nat → List StepState → List RollbackOperation →
    List StepState × List RollbackOperation × Option String
  | [], _, states, stack => (states, stack, Option.none)
  | step :: rest, i, states, stack =>
      -- `if (step.condition && !await evaluateCondition(...))`: an absent
      -- condition allows the step without calling the evaluator
      match (match step.condition with
             | Option.some c => evaluateCondition states c
             | Option.none => Except.ok true) with
      | Except.error e => (states, stack, Option.some e)
      | Except.ok b =>
          if !b then
            runSteps hub params rest (i + 1)
              (setSt states i (fun st => { st with status := StepStatus.skipped })) stack
          else
            let states1 := setSt states i (fun st => { st with status := StepStatus.running })
            match resolveParams params states1 step.input with
            | Except.error e =>
                (setSt states1 i (fun st =>
                  { st with status := StepStatus.failed, error := Option.some e }),
                 stack, Option.some e)
            | Except.ok rp =>
                match hub step.server step.tool rp with
                | Except.error e =>
                    (setSt states1 i (fun st =>
                      { st with status := StepStatus.failed, error := Option.some e }),
                     stack, Option.some e)
                | Except.ok result =>
                    let outs : List (String × JVal) :=
                      match step.output with
                      | Option.some o => [(o, result)]
                      | Option.none => []
                    let states2 := setSt states1 i (fun st =>
                      { st with status := StepStatus.success, outputs := outs })
                    match step.rollback with
                    | Option.none => runSteps hub params rest (i + 1) states2 stack
                    | Option.some rb =>
                        match resolveParams params states2 rb.input with
                        | Except.error e =>
                            (setSt states2 i (fun st =>
                              { st with status := StepStatus.failed, error := Option.some e }),
                             stack, Option.some e)
                        | Except.ok rparams =>
                            runSteps hub params rest (i + 1) states2
                              (stack ++ [{ server := rb.server, tool := rb.tool, params := rparams }])


/-- `ComposedToolResult.rollbackInfo`. -/
structure RollbackInfo where
  triggered : Bool
  successful : Bool
  error : Option String

/-- Drain a list of compensating operations in the given order, stopping
at the first failing call (the `for ... await` loop lives inside a single
`try`, so a rejection aborts the remaining iterations). Returns the
operations actually invoked, in order, and the first error. -/
def drainRollback (hub : ToolExec.Hub) :
    List RollbackOperation → List RollbackOperation × Option String
  | [] => ([], Option.none)
  | op :: rest =>
      match hub op.server op.tool op.params with
      | Except.ok _ =>
          let r := drainRollback hub rest
          (op :: r.1, r.2)
      | Except.error e => ([op], Option.some e)

/-- `performRollback`: an empty stack reports `{triggered:false,
successful:true}` without calling anything; otherwise the stack is
reversed (LIFO) and drained; a caught failure reports
`{triggered:true, successful:false, error}`. Returns the info and the
compensating calls actually issued. -/
def performRollback (hub : ToolExec.Hub) (stack : List RollbackOperation) :
    RollbackInfo × List RollbackOperation :=
  if stack.isEmpty then
    ({ triggered := false, successful := true, error := Option.none }, [])
  else
    let d := drainRollback hub stack.reverse
    match d.2 with
    | Option.none => ({ triggered := true, successful := true, error := Option.none }, d.1)
    | Option.some e => ({ triggered := true, successful := false, error := Option.some e }, d.1)

/-- The serialized step status of `generateResult`: `pending` and
`running` are reported as `skipped`. -/
def reportStatus : StepStatus → StepStatus
  | StepStatus.pending => StepStatus.skipped
  | StepStatus.running => StepStatus.skipped
  | st => st

/-- `ComposedToolResult` (the fields the claims read). -/
structure ComposedResult where
  success : Bool
  toolName : String
  stepResults : List (String × StepStatus)
  outputs : List (String × JVal)
  rollbackInfo : Option RollbackInfo

/-- `executeTool(name, params)` of the composition executor, from after
the input-schema parse: initialize every step state `pending`, run the
step loop; on success report the result without `rollbackInfo`; on a
thrown step error attempt the rollback and attach its info. Returns the
result and the compensating calls issued by the rollback. -/
def executeComposed (hub : ToolExec.Hub) (tool : ComposedTool) (params : JVal) :
    ComposedResult × List RollbackOperation :=
  let states0 : List StepState := tool.steps.map (fun s =>
    { stepName := s.name, status := StepStatus.pending, outputs := [], error := Option.none })
  let r := runSteps hub params tool.steps 0 states0 []
  let states := r.1
  let stack := r.2.1
  let mergedOutputs : List (String × JVal) :=
    states.foldl (fun acc st => st.outputs.foldl (fun m kv => rset m kv.1 kv.2) acc) []
  match r.2.2 with
  | Option.none =>
      ({ success := true, toolName := tool.name
         stepResults := states.map (fun st => (st.stepName, reportStatus st.status))
         outputs := mergedOutputs
         rollbackInfo := Option.none }, [])
  | Option.some _ =>
      let rb := performRollback hub stack
      ({ success := false, toolName := tool.name
         stepResults := states.map (fun st => (st.stepName, reportStatus st.status))
         outputs := mergedOutputs
         rollbackInfo := Option.some rb.1 }, rb.2)

/-- The duplicate-name scan of `validateTool`: the first step name that
was already seen, in iteration order. -/
def firstDup (seen : List String) : List String → Option String
  | [] => Option.none
  | n :: rest => if seen.contains n then Option.some n else firstDup (seen ++ [n]) rest

/-- The dependency set collected for one step by
`checkCircularDependencies`: the `output`-reference step names of the
step's `input` values, deduplicated in insertion order (a JS `Set`).
The step's `rollback.input` and `condition.stepName` are NOT inspected. -/
def outputDeps (st : ToolStep) : List String :=
  st.input.foldl (fun acc kv =>
    match kv.2 with
    | PValue.ref (PSource.output sn _) => if acc.contains sn then acc else acc ++ [sn]
    | _ => acc) []

/-- The dependency graph of a composed tool. -/
def depGraph (tool : ComposedTool) : List (String × List String) :=
  tool.steps.map (fun st => (st.name, outputDeps st))

def depsOf (graph : List (String × List String)) (n : String) : List String :=
  (lookupA graph n).getD []

/-- The DFS of `checkCircularDependencies` over a worklist, with a
recursion-path list and a shared visited list. `fuel` bounds the
recursion; the JS DFS always terminates on the finite graph, and every
use below supplies fuel exceeding the total work, so the bound is never
hit. On a node already on the path the cycle — the path suffix from that
node — is reported. -/
def dfsMany (graph : List (String × List String)) :
    Nat → List String → List String → List String →
    Except (List String) (List String)
  | _, visited, _, [] => Except.ok visited
  | 0, visited, _, _ :: _ => Except.ok visited
  | fuel + 1, visited, path, node :: rest =>
      if path.contains node then
        Except.error (path.dropWhile (fun x => !(x = node)))
      else if visited.contains node then
        dfsMany graph fuel visited path rest
      else
        match dfsMany graph fuel (visited ++ [node]) (path ++ [node]) (depsOf graph node) with
        | Except.error c => Except.error c
        | Except.ok visited' => dfsMany graph fuel visited' path rest

/-- A strict upper bound on the DFS work of `checkCircularDependencies`. -/
def dfsFuel (tool : ComposedTool) : Nat :=
  let refs := (tool.steps.map (fun s => (outputDeps s).length)).sum
  (tool.steps.length + refs + 2) * (tool.steps.length + refs + 2)

/-- `CompositionError` (the schema-compatibility variant is never
produced by the validator). -/
inductive CompErr where
  | validation (message : String) (field : String) (detail : String)
  | circular (cycle : List String)
deriving DecidableEq, Repr

/-- `checkCircularDependencies`: build the graph, then run the DFS from
every step name in order with a shared visited set and an empty path. -/
def checkCircularDependencies (tool : ComposedTool) : Except CompErr Unit :=
  match dfsMany (depGraph tool) (dfsFuel tool) [] [] (tool.steps.map (fun s => s.name)) with
  | Except.error c => Except.error (CompErr.circular c)
  | Except.ok _ => Except.ok ()

/-- `validateTool`, the gate of `registerTool`: reject the first
duplicate step name; then reject a cycle in the output-reference graph;
then reject the first step whose `(server, tool)` is not in the hub's
catalog. -/
def validateTool (catalog : List (String × List String)) (tool : ComposedTool) :
    Except CompErr Unit :=
  match firstDup [] (tool.steps.map (fun s => s.name)) with
  | Option.some n =>
      Except.error (CompErr.validation "Duplicate step names found" "steps"
        ("Step name '" ++ n ++ "' is used multiple times"))
  | Option.none =>
      match checkCircularDependencies tool with
      | Except.error e => Except.error e
      | Except.ok _ =>
          match tool.steps.find? (fun st => !((lookupA catalog st.server).getD []).contains st.tool) with
          | Option.some st =>
              Except.error (CompErr.validation "Invalid tool reference" "steps"
                ("Tool '" ++ st.tool ++ "' not found on server '" ++ st.server ++ "'"))
          | Option.none => Except.ok ()

end Comp

/-! ## Specification-side definitions

The following definitions are written from the specification's wording —
not from the source — so that refinement claims can compare the two. -/

namespace SpecSide

open ToolExec

/-- The extra dangerous keywords supplied by the config. -/
def extraKeywords (cfg : ExecConfig) : List String :=
  match cfg.safetyConfig with
  | Option.some sc => sc.dangerousKeywords.getD []
  | Option.none => []

/-- The configured `dangerousFields` set. -/
def dangerousFieldsOf (cfg : ExecConfig) : List String :=
  match cfg.safetyConfig with
  | Option.some sc => sc.dangerousFields
  | Option.none => []

/-- The explicitly set `safety.dangerLevel` of a descriptor, if any. -/
def explicitDangerLevel (t : McpTool) : Option DangerLevel :=
  match t.safety with
  | Option.some s => s.dangerLevel
  | Option.none => Option.none

/-- The claim's danger characterization: the tool is dangerous iff
`safety.isDangerous` is true, or `safety.dangerLevel` is set and not
`none`, or the name case-insensitively contains one of the keywords or a
config-supplied extra, or some required field name is in the configured
`dangerousFields` set. -/
def DangerousSpec (cfg : ExecConfig) (t : McpTool) : Prop :=
  (∃ s, t.safety = Option.some s ∧ s.isDangerous = Option.some true)
  ∨ (∃ l, explicitDangerLevel t = Option.some l ∧ l ≠ DangerLevel.none)
  ∨ (∃ k, k ∈ DANGEROUS_KEYWORDS ++ extraKeywords cfg
        ∧ strHasCI t.name k = true)
  ∨ (∃ f, f ∈ t.inputSchema.required.getD [] ∧ f ∈ dangerousFieldsOf cfg)

/-- Boolean twin of `DangerousSpec`. -/
def dangerousSpecB (cfg : ExecConfig) (t : McpTool) : Bool :=
  (match t.safety with
   | Option.some s => s.isDangerous = Option.some true
   | Option.none => false)
  || (match explicitDangerLevel t with
      | Option.some l => !(l = DangerLevel.none)
      | Option.none => false)
  || (DANGEROUS_KEYWORDS ++ extraKeywords cfg).any (fun k => strHasCI t.name k)
  || (t.inputSchema.required.getD []).any (fun f => (dangerousFieldsOf cfg).contains f)

/-- The claim's level assignment for a tool without an explicit danger
level: among dangerous tools, `high` on a DELETE-pattern name, `medium`
on a MODIFY- or EXECUTE-pattern name, `low` otherwise; `none` for
non-dangerous tools. -/
def specLevel (cfg : ExecConfig) (t : McpTool) : DangerLevel :=
  if dangerousSpecB cfg t then
    if testPat deletePat t.name then DangerLevel.high
    else if testPat modifyPat t.name || testPat executePat t.name then
      DangerLevel.medium
    else DangerLevel.low
  else DangerLevel.none

open Comp in
/-- The claim's ordering property on a composed tool: every `ParamRef` of
kind `output` (in a step's input or in its rollback input) names a step
that appears strictly earlier in the declared step order. -/
def outputRefsEarlierB : List String → List Comp.ToolStep → Bool
  | _, [] => true
  | earlier, st :: rest =>
      let refsOk := fun (input : List (String × Comp.PValue)) =>
        input.all (fun kv =>
          match kv.2 with
          | Comp.PValue.ref (Comp.PSource.output sn _) => earlier.contains sn
          | _ => true)
      refsOk st.input
      && (match st.rollback with
          | Option.some rb => refsOk rb.input
          | Option.none => true)
      && outputRefsEarlierB (earlier ++ [st.name]) rest

def outputRefsEarlier (tool : Comp.ComposedTool) : Bool :=
  outputRefsEarlierB [] tool.steps

end SpecSide

/-! ## Concrete instances used by the scenario theorems -/

namespace Instances

open ToolExec Comp Retry ConnLife

/-- Scenario S2/S3's tool `greet`: one required field `name`. -/
def greetTool : McpTool :=
  { name := "greet", description := Option.none, safety := Option.none
    inputSchema :=
      { properties := [("name", { type := "string", description := Option.none })]
        required := Option.some ["name"] } }

/-- The LLM oracle's deterministic you-must-ask fallback (never consulted
by the scenarios below). -/
def llmIdle : LLMPromptContext → LLMPromptResult :=
  fun _ => { providedValues := [], shouldPromptUser := true, userPrompt := Option.none }

/-- Scenario S3's executor: LLM disabled, no server defaults. -/
def s3Env : ExecEnv :=
  { cfg := { maxRetries := 3, llmEnabled := false
             safetyConfig := defaultExecConfig.safetyConfig }
    schemas := [("g", [("greet", greetTool)])]
    ctxs := []
    hub := fun _ _ _ => Except.ok (JVal.str "ok")
    confirm := defaultGetUserConfirmation
    llm := llmIdle }

/-- Scenario S4's tool `delete_repo` (no explicit safety metadata, no
required fields). -/
def delRepoTool : McpTool :=
  { name := "delete_repo", description := Option.none, safety := Option.none
    inputSchema := { properties := [], required := Option.none } }

/-- Scenario S4's executor with the default (rejecting) confirmation. -/
def s4Env : ExecEnv :=
  { cfg := defaultExecConfig
    schemas := [("github", [("delete_repo", delRepoTool)])]
    ctxs := []
    hub := fun _ _ _ => Except.ok (JVal.str "probe")
    confirm := defaultGetUserConfirmation
    llm := llmIdle }

/-- A MODIFY-pattern tool whose name contains neither `delete` nor
`modify`. -/
def updFileTool : McpTool :=
  { name := "update_file", description := Option.none, safety := Option.none
    inputSchema := { properties := [], required := Option.none } }

def uEnv : ExecEnv :=
  { cfg := defaultExecConfig
    schemas := [("srv", [("update_file", updFileTool)])]
    ctxs := []
    hub := fun _ _ _ => Except.ok (JVal.str "probe")
    confirm := defaultGetUserConfirmation
    llm := llmIdle }

/-- A tool that requires confirmation only through its explicit safety
metadata and is not classified dangerous. -/
def fetchTool : McpTool :=
  { name := "fetch_data", description := Option.none
    safety := Option.some
      { isDangerous := Option.none, dangerLevel := Option.none
        requiresConfirmation := Option.some true }
    inputSchema := { properties := [], required := Option.none } }

def wEnv : ExecEnv :=
  { cfg := defaultExecConfig
    schemas := [("s", [("fetch_data", fetchTool)])]
    ctxs := []
    hub := fun _ _ _ => Except.ok (JVal.str "ok")
    confirm := defaultGetUserConfirmation
    llm := llmIdle }

/-- Scenario S6-style composed tool: A and B succeed and push
compensators, C's call raises. -/
def stepA : ToolStep :=
  { name := "A", server := "srv", tool := "t_a", input := []
    output := Option.some "oa", condition := Option.none
    rollback := Option.some { server := "srv", tool := "undo_a", input := [] } }

def stepB : ToolStep :=
  { name := "B", server := "srv", tool := "t_b", input := []
    output := Option.some "ob", condition := Option.none
    rollback := Option.some { server := "srv", tool := "undo_b", input := [] } }

def stepC : ToolStep :=
  { name := "C", server := "srv", tool := "t_c", input := []
    output := Option.none, condition := Option.none, rollback := Option.none }

def wfTool : ComposedTool := { name := "wf", steps := [stepA, stepB, stepC] }

/-- A backend on which step C's call and B's compensator fail. -/
def wfHub : Hub := fun _ tl _ =>
  if tl = "t_c" then Except.error "boom"
  else if tl = "undo_b" then Except.error "rbfail"
  else Except.ok (JVal.str "ok")

/-- A composed tool whose first step forward-references the second
step's output (no cycle). -/
def fwdTool : ComposedTool :=
  { name := "fwd"
    steps :=
      [{ name := "A", server := "srv", tool := "t1"
         input := [("x", PValue.ref (PSource.output "B" "out"))]
         output := Option.none, condition := Option.none, rollback := Option.none },
       { name := "B", server := "srv", tool := "t2", input := []
         output := Option.some "out", condition := Option.none, rollback := Option.none }] }

/-- A composed tool with a genuine two-step reference cycle. -/
def cycTool : ComposedTool :=
  { name := "cyc"
    steps :=
      [{ name := "P", server := "srv", tool := "t1"
         input := [("x", PValue.ref (PSource.output "Q" "o"))]
         output := Option.none, condition := Option.none, rollback := Option.none },
       { name := "Q", server := "srv", tool := "t2"
         input := [("y", PValue.ref (PSource.output "P" "o"))]
         output := Option.none, condition := Option.none, rollback := Option.none }] }

def catSrv : List (String × List String) := [("srv", ["t1", "t2"])]

end Instances

/-! ## Helper lemmas shared by the claim theorems -/

namespace ToolExec

/-- When a resolved descriptor requires confirmation and the hook denies,
`executeTool` returns the user-denied result, and the only RPCs of the
invocation are those of the pre-confirmation state capture. -/
theorem denied_exec (env : ExecEnv) (serverName toolName : String)
    (args : List (String × JVal)) (tool : McpTool)
    (hschema : getToolSchema env.schemas serverName toolName = Option.some tool)
    (hreq : requiresConfirmation env.cfg env.schemas serverName toolName = true)
    (hconf : env.confirm serverName toolName args = false)
    (hfuel : 0 < env.cfg.maxRetries) :
    executeTool env serverName toolName args =
      ({ success := false, data := Option.none
         error := Option.some "User denied dangerous operation"
         missingFields := Option.none, rollbackError := Option.none },
       if isDangerousTool env.cfg tool
       then (captureState env.schemas env.hub serverName toolName args).2
       else []) := by
  obtain ⟨n, hn⟩ : ∃ n, env.cfg.maxRetries = n + 1 :=
    ⟨env.cfg.maxRetries - 1, by omega⟩
  unfold executeTool
  rw [hn]
  by_cases hd : isDangerousTool env.cfg tool
  · simp [executeToolGo, hschema, hreq, hconf, hd]
  · simp [executeToolGo, hschema, hreq, hconf, hd]

end ToolExec

namespace Comp

/-- Whether an oracle call succeeded. -/
def isOkE {ε α : Type} : Except ε α → Bool
  | Except.ok _ => true
  | Except.error _ => false

theorem drain_decomp (hub : ToolExec.Hub) (l : List RollbackOperation) :
    ∃ rest, l = (drainRollback hub l).1 ++ rest := by
  induction l with
  | nil => exact ⟨[], rfl⟩
  | cons op rest ih =>
      cases hcall : hub op.server op.tool op.params with
      | ok v =>
          obtain ⟨r, hr⟩ := ih
          refine ⟨r, ?_⟩
          simp only [drainRollback, hcall, List.cons_append]
          exact congrArg (op :: ·) hr
      | error e =>
          exact ⟨rest, by simp [drainRollback, hcall]⟩

theorem drain_none_iff (hub : ToolExec.Hub) (l : List RollbackOperation) :
    (drainRollback hub l).2 = Option.none
      ↔ ∀ op ∈ l, isOkE (hub op.server op.tool op.params) = true := by
  induction l with
  | nil => simp [drainRollback]
  | cons op rest ih =>
      cases hcall : hub op.server op.tool op.params with
      | ok v => simp [drainRollback, hcall, isOkE, ih]
      | error e => simp [drainRollback, hcall, isOkE]

theorem drain_none_full (hub : ToolExec.Hub) (l : List RollbackOperation)
    (h : (drainRollback hub l).2 = Option.none) : (drainRollback hub l).1 = l := by
  induction l with
  | nil => rfl
  | cons op rest ih =>
      cases hcall : hub op.server op.tool op.params with
      | ok v =>
          simp only [drainRollback, hcall] at h ⊢
          exact congrArg (op :: ·) (ih h)
      | error e => simp [drainRollback, hcall] at h

theorem firstDup_none (l : List String) :
    ∀ seen, firstDup seen l = Option.none → l.Nodup ∧ ∀ x ∈ l, x ∉ seen := by
  induction l with
  | nil =>
      intro seen _
      exact ⟨List.nodup_nil, by simp⟩
  | cons n rest ih =>
      intro seen h
      unfold firstDup at h
      by_cases hc : seen.contains n
      · rw [if_pos hc] at h
        cases h
      · rw [if_neg hc] at h
        obtain ⟨hnd, hmem⟩ := ih (seen ++ [n]) h
        have hn_rest : n ∉ rest := fun hmm => by
          have h2 := hmem n hmm
          exact h2 (by simp)
        refine ⟨List.nodup_cons.mpr ⟨hn_rest, hnd⟩, ?_⟩
        intro x hx hseen
        rcases List.mem_cons.mp hx with h1 | h1
        · subst h1
          exact hc (List.elem_iff.mpr hseen)
        · have h2 := hmem x h1
          exact h2 (List.mem_append_left _ hseen)

end Comp

/-! ## Claim theorems -/

/-- C1: the claim states that `validateAndEnrichArguments` iterates
exactly the field names of `inputSchema.required`, so that the tool
`greet` (required = `["name"]`) called with empty arguments, no defaults
and the LLM disabled yields `{ok:false, missingFields:["name"]}`. The
code instead iterates `Object.entries(tool.inputSchema)` — the schema
object's own keys `type`, `properties`, `required` — so the required
field `name` is never checked and the reported missing fields are the
schema keys. The comment above the loop (`// Validate required fields`),
the predecessor implementation, and the LLM-prompt consumer that looks
each reported field up in `inputSchema.properties` all show the claim is
the intent and the code a slip. This theorem evaluates the embedded code
at the failing input. -/
theorem C1_validation_iterates_schema_object_keys :
    Instances.greetTool.inputSchema.required = Option.some ["name"]
    ∧ ToolExec.validateAndEnrichArguments [] "g" Instances.greetTool [] =
        { valid := false, enrichedArgs := []
          missingFields := Option.some ["type", "properties", "required"] }
    ∧ (ToolExec.executeTool Instances.s3Env "g" "greet" []).1 =
        { success := false, data := Option.none
          error := Option.some "Missing required fields: type, properties, required"
          missingFields := Option.some ["type", "properties", "required"]
          rollbackError := Option.none }
    ∧ (ToolExec.executeTool Instances.s3Env "g" "greet" []).2 = [] := by
  refine ⟨rfl, rfl, ?_, ?_⟩ <;> rfl

/-- C2: at every reachable hub state the active-operation counter never
exceeds `MAX_CONCURRENT_OPERATIONS = 5`; `enqueueToolCall` at or above
the cap returns the overloaded error with the state unchanged (nothing
enqueued, nothing mutated); and the counter equals the number of
dispatched-but-unsettled calls — it is incremented exactly at dispatch
and decremented exactly when a call settles. -/
theorem C2_admission_control :
    HubQueue.MAX_CONCURRENT_OPERATIONS = 5
    ∧ ∀ (hs : HubQueue.HubState), HubQueue.HubReach hs →
        hs.active ≤ HubQueue.MAX_CONCURRENT_OPERATIONS
        ∧ (∀ (s : String) (c : HubQueue.QCall),
             HubQueue.MAX_CONCURRENT_OPERATIONS ≤ hs.active →
             HubQueue.enqueueToolCall hs s c = (hs, HubQueue.EnqOutcome.overloaded))
        ∧ hs.active = hs.inflight.length := by
  refine ⟨rfl, fun hs hr => ?_⟩
  have hi := HubQueue.hubInv_reach hr
  refine ⟨hi.activeLe, fun s c hge => ?_, hi.activeEq⟩
  unfold HubQueue.enqueueToolCall
  rw [if_pos hge]

/-- A one-enqueue hub state used to instantiate the queue theorems. -/
def qc1 : HubQueue.QCall := { toolId := "say", params := [] }

def hubState1 : HubQueue.HubState :=
  (HubQueue.enqueueToolCall HubQueue.hubInit "alpha" qc1).1

theorem hubState1_reach : HubQueue.HubReach hubState1 :=
  HubQueue.HubReach.step HubQueue.HubReach.init
    (HubQueue.HubStep.enq HubQueue.hubInit "alpha" qc1)

/-- C2 witness: the theorem applied to the concrete reachable state
after one accepted enqueue. -/
theorem C2_admission_control_witness :
    hubState1.active ≤ HubQueue.MAX_CONCURRENT_OPERATIONS
    ∧ hubState1.active = hubState1.inflight.length
    ∧ hubState1.active = 1 := by
  have h := C2_admission_control.2 hubState1 hubState1_reach
  exact ⟨h.1, h.2.2, rfl⟩

/-- C3: per server, calls are dispatched to the backend in exactly the
order their enqueues were accepted (the dispatch log projected to any
server is a prefix of the acceptance log so projected), and at most one
call per server is in flight at any instant — the next call is
dispatched only by the settle event of the current one. -/
theorem C3_fifo_serialization :
    ∀ (hs : HubQueue.HubState), HubQueue.HubReach hs → ∀ s : String,
      (∃ rest, HubQueue.perServer s hs.accepted
         = HubQueue.perServer s hs.dispatched ++ rest)
      ∧ (HubQueue.perServer s hs.inflight).length ≤ 1 := by
  intro hs hr s
  have hi := HubQueue.hubInv_reach hr
  refine ⟨⟨_, hi.fifo s⟩, ?_⟩
  rw [hi.inflightHead s, List.length_map]
  exact List.length_take_le 1 (hs.queues s)

/-- C3 witness: the theorem applied to the concrete one-enqueue state. -/
theorem C3_fifo_serialization_witness :
    (∃ rest, HubQueue.perServer "alpha" hubState1.accepted
       = HubQueue.perServer "alpha" hubState1.dispatched ++ rest)
    ∧ (HubQueue.perServer "alpha" hubState1.inflight).length ≤ 1 :=
  C3_fifo_serialization hubState1 hubState1_reach "alpha"

/-- C4 counterexample: in the three-step workflow where A and B push
compensators `undo_a` and `undo_b` and step C's call raises, the drain
invokes only `undo_b` (whose call fails) — `undo_a` is never invoked,
refuting the claim that every captured compensating call is invoked even
when an earlier compensator fails. The drain runs inside a single `try`,
so the first rejection aborts it. -/
theorem C4_rollback_drain_counterexample :
    ((Comp.executeComposed Instances.wfHub Instances.wfTool (JVal.obj [])).2.map
        (fun op => op.tool)) = ["undo_b"]
    ∧ (Comp.executeComposed Instances.wfHub Instances.wfTool (JVal.obj [])).1.rollbackInfo =
        Option.some { triggered := true, successful := false, error := Option.some "rbfail" }
    ∧ (Comp.executeComposed Instances.wfHub Instances.wfTool (JVal.obj [])).1.success = false :=
  ⟨rfl, rfl, rfl⟩

/-- C4 (amended): the rollback stack is drained LIFO, but the drain
stops at the first failing compensator — the compensators actually
invoked form an initial segment of the reversed stack, the whole
reversed stack exactly when no invoked compensator failed; `successful`
is true iff every compensator call succeeds; `triggered` is true iff the
stack was nonempty; and a result carries `rollbackInfo` exactly when the
execution failed. -/
theorem C4_rollback_drain_amended :
    ∀ (hub : ToolExec.Hub) (stack : List Comp.RollbackOperation),
      ((Comp.performRollback hub stack).1.triggered = !stack.isEmpty)
      ∧ (∃ rest, stack.reverse = (Comp.performRollback hub stack).2 ++ rest)
      ∧ ((Comp.performRollback hub stack).1.successful = true ↔
           ∀ op ∈ stack.reverse, Comp.isOkE (hub op.server op.tool op.params) = true)
      ∧ ((Comp.performRollback hub stack).1.successful = true →
           (Comp.performRollback hub stack).2 = stack.reverse)
      ∧ ∀ (tool : Comp.ComposedTool) (params : JVal),
          ((Comp.executeComposed hub tool params).1.rollbackInfo).isSome
            = !(Comp.executeComposed hub tool params).1.success := by
  intro hub stack
  by_cases hst : stack.isEmpty
  · have he : stack = [] := List.isEmpty_iff.mp hst
    subst he
    refine ⟨rfl, ⟨[], rfl⟩, by simp [Comp.performRollback], by simp [Comp.performRollback], ?_⟩
    intro tool params
    unfold Comp.executeComposed
    cases hrun : (Comp.runSteps hub params tool.steps 0
        (tool.steps.map (fun s =>
          { stepName := s.name, status := Comp.StepStatus.pending
            outputs := [], error := Option.none })) []).2.2 <;>
      simp [hrun]
  · have hne : stack.isEmpty = false := Bool.not_eq_true _ ▸ Bool.of_not_eq_true hst
    refine ⟨?_, ?_, ?_, ?_, ?_⟩
    · unfold Comp.performRollback
      rw [if_neg hst]
      cases hd : (Comp.drainRollback hub stack.reverse).2 <;> simp [hd, hne]
    · unfold Comp.performRollback
      rw [if_neg hst]
      cases hd : (Comp.drainRollback hub stack.reverse).2 <;>
        simpa [hd] using Comp.drain_decomp hub stack.reverse
    · unfold Comp.performRollback
      rw [if_neg hst]
      cases hd : (Comp.drainRollback hub stack.reverse).2 with
      | none => simpa [hd] using (Comp.drain_none_iff hub stack.reverse).mp hd
      | some e =>
          simp only [hd]
          constructor
          · intro hcontra; cases hcontra
          · intro hall
            have := (Comp.drain_none_iff hub stack.reverse).mpr hall
            rw [hd] at this
            cases this
    · unfold Comp.performRollback
      rw [if_neg hst]
      cases hd : (Comp.drainRollback hub stack.reverse).2 with
      | none => intro _; simpa [hd] using Comp.drain_none_full hub stack.reverse hd
      | some e => intro hcontra; simp [hd] at hcontra
    · intro tool params
      unfold Comp.executeComposed
      cases hrun : (Comp.runSteps hub params tool.steps 0
          (tool.steps.map (fun s =>
            { stepName := s.name, status := Comp.StepStatus.pending
              outputs := [], error := Option.none })) []).2.2 <;>
        simp [hrun]

/-- A single compensating operation used to instantiate C4's theorem. -/
def rbOpW : Comp.RollbackOperation := { server := "srv", tool := "undo_a", params := [] }

/-- C4 witness: the amended theorem applied to a concrete one-element
stack whose compensator succeeds. -/
theorem C4_rollback_drain_amended_witness :
    (Comp.performRollback Instances.wfHub [rbOpW]).1.triggered
        = !([rbOpW] : List Comp.RollbackOperation).isEmpty
    ∧ (Comp.performRollback Instances.wfHub [rbOpW]).2
        = ([rbOpW] : List Comp.RollbackOperation).reverse := by
  have h := C4_rollback_drain_amended Instances.wfHub [rbOpW]
  exact ⟨h.1, h.2.2.2.1 rfl⟩

/-- C5 counterexample: a two-step definition whose first step references
the output of the LATER second step (no cycle) is accepted by
`validateTool` — `registerTool` does not enforce the earlier-step
ordering, refuting the claim that a forward output reference is rejected
at registration. -/
theorem C5_forward_reference_counterexample :
    Comp.validateTool Instances.catSrv Instances.fwdTool = Except.ok ()
    ∧ SpecSide.outputRefsEarlier Instances.fwdTool = false :=
  ⟨rfl, rfl⟩

/-- C5 (amended): `registerTool` accepts a composed tool only if its
step names are unique and every `(step.server, step.tool)` resolves in
the catalog, and its DFS rejects output-reference cycles (shown on a
concrete two-step cycle, reported with the detected path); but it does
NOT require output references to name earlier steps — the concrete
forward-referencing definition is accepted. -/
theorem C5_registration_checks_amended :
    (∀ (catalog : List (String × List String)) (tool : Comp.ComposedTool),
       Comp.validateTool catalog tool = Except.ok () →
         (tool.steps.map (fun s => s.name)).Nodup
         ∧ ∀ st ∈ tool.steps, st.tool ∈ (lookupA catalog st.server).getD [])
    ∧ Comp.validateTool Instances.catSrv Instances.cycTool
        = Except.error (Comp.CompErr.circular ["P", "Q"])
    ∧ Comp.validateTool Instances.catSrv Instances.fwdTool = Except.ok () := by
  refine ⟨?_, rfl, rfl⟩
  intro catalog tool h
  unfold Comp.validateTool at h
  cases h1 : Comp.firstDup [] (tool.steps.map (fun s => s.name)) with
  | some n => rw [h1] at h; cases h
  | none =>
      rw [h1] at h
      cases h2 : Comp.checkCircularDependencies tool with
      | error e => rw [h2] at h; cases h
      | ok u =>
          rw [h2] at h
          cases h3 : tool.steps.find?
              (fun st => !((lookupA catalog st.server).getD []).contains st.tool) with
          | some st => rw [h3] at h; cases h
          | none =>
              refine ⟨(Comp.firstDup_none _ [] h1).1, fun st hst => ?_⟩
              have h4 := List.find?_eq_none.mp h3 st hst
              have h5 : ((lookupA catalog st.server).getD []).contains st.tool = true := by
                simpa using h4
              exact List.elem_iff.mp h5

/-- C5 witness: the amended theorem's general soundness applied to the
accepted forward-referencing definition. -/
theorem C5_registration_checks_amended_witness :
    (Instances.fwdTool.steps.map (fun s => s.name)).Nodup
    ∧ ∀ st ∈ Instances.fwdTool.steps,
        st.tool ∈ (lookupA Instances.catSrv st.server).getD [] :=
  C5_registration_checks_amended.1 Instances.catSrv Instances.fwdTool
    C5_registration_checks_amended.2.2

/-- C6 counterexample: `delete_repo` with the confirmation hook denying
still sends one `tools/call` RPC — the pre-confirmation state-capture
probe `get_repo` with `{mode:'read'}` — refuting the claim that no
`tools/call` RPC is sent to any backend for the denied invocation. -/
theorem C6_denied_probe_rpc_counterexample :
    (ToolExec.executeTool Instances.s4Env "github" "delete_repo" []).1 =
      { success := false, data := Option.none
        error := Option.some "User denied dangerous operation"
        missingFields := Option.none, rollbackError := Option.none }
    ∧ (ToolExec.executeTool Instances.s4Env "github" "delete_repo" []).2 =
      [{ serverName := "github", toolName := "get_repo"
         args := [("mode", JVal.str "read")] }] :=
  ⟨rfl, rfl⟩

/-- C6 (amended): when the resolved descriptor requires confirmation and
the hook returns false, `executeTool` fails with the user-denied result
and the dangerous call itself is never dispatched — but the RPCs of the
invocation are exactly those of the pre-confirmation state capture
(a read probe for DELETE/MODIFY-classified tools), not none. -/
theorem C6_user_denied_amended :
    ∀ (env : ToolExec.ExecEnv) (serverName toolName : String)
      (args : List (String × JVal)) (tool : ToolExec.McpTool),
      ToolExec.getToolSchema env.schemas serverName toolName = Option.some tool →
      ToolExec.requiresConfirmation env.cfg env.schemas serverName toolName = true →
      env.confirm serverName toolName args = false →
      0 < env.cfg.maxRetries →
      ToolExec.executeTool env serverName toolName args =
        ({ success := false, data := Option.none
           error := Option.some "User denied dangerous operation"
           missingFields := Option.none, rollbackError := Option.none },
         if ToolExec.isDangerousTool env.cfg tool
         then (ToolExec.captureState env.schemas env.hub serverName toolName args).2
         else []) :=
  fun env sn tn args tool h1 h2 h3 h4 =>
    ToolExec.denied_exec env sn tn args tool h1 h2 h3 h4

/-- C6 witness: the amended theorem applied to a tool that requires
confirmation only through explicit safety metadata (not dangerous, so
the capture sends nothing and the trace is empty). -/
theorem C6_user_denied_amended_witness :
    ToolExec.executeTool Instances.wEnv "s" "fetch_data" [] =
      ({ success := false, data := Option.none
         error := Option.some "User denied dangerous operation"
         missingFields := Option.none, rollbackError := Option.none }, []) := by
  have h := C6_user_denied_amended Instances.wEnv "s" "fetch_data" []
    Instances.fetchTool rfl rfl rfl (by decide)
  exact h.trans (by rfl)

/-- C7 counterexample: with the retry counter at the cap
(`retryCount = 3`) and a backend that would connect successfully,
`reconnectServer` fails with `MaxRetriesExceeded` and leaves the counter
at 3 — it performs no reset, refuting the claim that a manual reconnect
resets the counter and makes connection attempts possible again. -/
theorem C7_reconnect_no_reset_counterexample :
    Retry.reconnectServer true { connected := false, retryCount := 3 } true
      = ({ connected := false, retryCount := 3 },
         Option.some Retry.ConnError.maxRetriesExceeded) :=
  rfl

/-- C7 (amended): once the per-server retry count reaches
`MAX_RETRY_ATTEMPTS = 3`, every further `ensureConnection` for a
non-connected server — including via `reconnectServer`, which performs
no counter reset — fails with `MaxRetriesExceeded`; below the cap a
successful connect resets the counter to zero, a failed connect
increments it; when already connected, `ensureConnection` returns at
once. -/
theorem C7_retry_cap_amended :
    ∀ (st : Retry.RetryState) (co : Bool),
      (st.connected = false → Retry.MAX_RETRY_ATTEMPTS ≤ st.retryCount →
         Retry.ensureConnection st co
             = (st, Option.some Retry.ConnError.maxRetriesExceeded)
         ∧ Retry.reconnectServer true st co
             = (st, Option.some Retry.ConnError.maxRetriesExceeded))
      ∧ (st.connected = false → st.retryCount < Retry.MAX_RETRY_ATTEMPTS →
           Retry.ensureConnection st true
             = ({ connected := true, retryCount := 0 }, Option.none))
      ∧ (st.connected = false → st.retryCount < Retry.MAX_RETRY_ATTEMPTS →
           Retry.ensureConnection st false
             = ({ st with retryCount := st.retryCount + 1 },
                Option.some Retry.ConnError.connectFailed))
      ∧ (st.connected = true → Retry.ensureConnection st co = (st, Option.none)) := by
  intro st co
  refine ⟨fun hc hcap => ?_, fun hc hlt => ?_, fun hc hlt => ?_, fun hc => ?_⟩
  · constructor <;>
      simp [Retry.ensureConnection, Retry.reconnectServer, hc, hcap]
  · simp [Retry.ensureConnection, hc, Nat.not_le.mpr hlt]
  · simp [Retry.ensureConnection, hc, Nat.not_le.mpr hlt]
  · simp [Retry.ensureConnection, hc]

/-- C7 witness: the amended theorem applied at the cap and below it. -/
theorem C7_retry_cap_amended_witness :
    Retry.ensureConnection { connected := false, retryCount := 3 } true
      = ({ connected := false, retryCount := 3 },
         Option.some Retry.ConnError.maxRetriesExceeded)
    ∧ Retry.ensureConnection { connected := false, retryCount := 0 } true
      = ({ connected := true, retryCount := 0 }, Option.none) :=
  ⟨((C7_retry_cap_amended { connected := false, retryCount := 3 } true).1
      rfl (by decide)).1,
   (C7_retry_cap_amended { connected := false, retryCount := 0 } true).2.1
      rfl (by decide)⟩

/-- C8 counterexample: in a `connectServer` run whose `initialize`
request throws (so no initialize reply ever succeeded), the connection
still passes through a state with `status = connected` — the transition
to `connected` happens right after the transport connect and BEFORE the
`initialize` request, refuting the claim. -/
theorem C8_connected_before_init_counterexample :
    ({ status := ConnLife.ConnStatus.connected
       capabilities := ConnLife.emptyCaps } : ConnLife.ConnSnap)
      ∈ ConnLife.connectServerTrace true Option.none := by
  decide

/-- C8 (amended): every `connectServer` run starts `connecting` with
empty capabilities; whenever the status is `connected`, the stored
capabilities are either still the empty pre-initialize record or exactly
the initialize reply's snapshot; on every successful transport connect a
`connected`-with-empty-capabilities state occurs (before the initialize
request); after a successful initialize the final state is `connected`
with that reply's capabilities; after a failed initialize it is
`disconnected`. -/
theorem C8_connect_lifecycle_amended :
    ∀ (co : Bool) (ir : Option ConnLife.Caps),
      ((ConnLife.connectServerTrace co ir).head?
          = Option.some { status := ConnLife.ConnStatus.connecting
                          capabilities := ConnLife.emptyCaps })
      ∧ (∀ sn ∈ ConnLife.connectServerTrace co ir,
            sn.status = ConnLife.ConnStatus.connected →
            sn.capabilities = ConnLife.emptyCaps ∨ ir = Option.some sn.capabilities)
      ∧ (co = true →
            ({ status := ConnLife.ConnStatus.connected
               capabilities := ConnLife.emptyCaps } : ConnLife.ConnSnap)
              ∈ ConnLife.connectServerTrace co ir)
      ∧ (∀ caps, co = true → ir = Option.some caps →
            (ConnLife.connectServerTrace co ir).getLast?
              = Option.some { status := ConnLife.ConnStatus.connected
                              capabilities := caps })
      ∧ (co = true → ir = Option.none →
            (ConnLife.connectServerTrace co ir).getLast?
              = Option.some { status := ConnLife.ConnStatus.disconnected
                              capabilities := ConnLife.emptyCaps }) := by
  intro co ir
  cases co with
  | false =>
      cases ir with
      | none =>
          refine ⟨rfl, ?_, ?_, ?_, ?_⟩
          · intro sn h1 h2
            simp [ConnLife.connectServerTrace] at h1
            rcases h1 with rfl | rfl <;> simp at h2
          · intro h; simp at h
          · intro caps h; simp at h
          · intro h; simp at h
      | some caps =>
          refine ⟨rfl, ?_, ?_, ?_, ?_⟩
          · intro sn h1 h2
            simp [ConnLife.connectServerTrace] at h1
            rcases h1 with rfl | rfl <;> simp at h2
          · intro h; simp at h
          · intro caps' h; simp at h
          · intro h; simp at h
  | true =>
      cases ir with
      | none =>
          refine ⟨rfl, ?_, ?_, ?_, ?_⟩
          · intro sn h1 h2
            simp [ConnLife.connectServerTrace] at h1
            rcases h1 with rfl | rfl | rfl
            · simp at h2
            · exact Or.inl rfl
            · simp at h2
          · intro _
            simp [ConnLife.connectServerTrace]
          · intro caps _ h; simp at h
          · intro _ _; rfl
      | some caps =>
          refine ⟨rfl, ?_, ?_, ?_, ?_⟩
          · intro sn h1 h2
            simp [ConnLife.connectServerTrace] at h1
            rcases h1 with rfl | rfl | rfl
            · simp at h2
            · exact Or.inl rfl
            · exact Or.inr rfl
          · intro _
            simp [ConnLife.connectServerTrace]
          · intro caps' _ h
            cases h
            rfl
          · intro _ h; simp at h

/-- C8 witness: the amended theorem's final-state clause applied to a
successful run advertising tools. -/
theorem C8_connect_lifecycle_amended_witness :
    (ConnLife.connectServerTrace true
        (Option.some { tools := true, resources := false, resourceTemplates := false })).getLast?
      = Option.some { status := ConnLife.ConnStatus.connected
                      capabilities :=
                        { tools := true, resources := false, resourceTemplates := false } } :=
  (C8_connect_lifecycle_amended true
      (Option.some { tools := true, resources := false, resourceTemplates := false })).2.2.2.1
    { tools := true, resources := false, resourceTemplates := false } rfl rfl

/-- C9: the executor's danger classification agrees with the claim's
characterization — a descriptor is dangerous iff `safety.isDangerous` is
true, or an explicit danger level other than `none` is set, or the name
case-insensitively contains a dangerous keyword (built-in or
config-supplied), or a required field is among the configured dangerous
fields; and for a descriptor without an explicit level, the computed
level is `high` on a DELETE-pattern name, `medium` on a MODIFY- or
EXECUTE-pattern name, `low` for any other dangerous descriptor and
`none` for non-dangerous ones (the high/medium/low cases partition the
dangerous descriptors, as the claim's "low for any other dangerous tool,
and none otherwise" wording scopes them). -/
theorem C9_danger_classification :
    ∀ (cfg : ToolExec.ExecConfig) (t : ToolExec.McpTool),
      (ToolExec.isDangerousTool cfg t = true ↔ SpecSide.DangerousSpec cfg t)
      ∧ (SpecSide.explicitDangerLevel t = Option.none →
           ToolExec.getToolDangerLevel cfg t = SpecSide.specLevel cfg t) := by
  intro cfg t
  have hB : ToolExec.isDangerousTool cfg t = SpecSide.dangerousSpecB cfg t := by
    unfold ToolExec.isDangerousTool SpecSide.dangerousSpecB
      SpecSide.explicitDangerLevel SpecSide.extraKeywords SpecSide.dangerousFieldsOf
    cases t.safety <;> cases cfg.safetyConfig <;> simp
  constructor
  · rw [hB]
    unfold SpecSide.dangerousSpecB SpecSide.DangerousSpec
    simp only [Bool.or_eq_true, List.any_eq_true, decide_eq_true_eq]
    constructor
    · rintro (((h1 | h2) | h3) | h4)
      · left
        cases hs : t.safety with
        | none => rw [hs] at h1; cases h1
        | some s =>
            rw [hs] at h1
            exact ⟨s, rfl, of_decide_eq_true h1⟩
      · right; left
        cases hl : SpecSide.explicitDangerLevel t with
        | none => rw [hl] at h2; cases h2
        | some l =>
            rw [hl] at h2
            exact ⟨l, rfl, by simpa using h2⟩
      · right; right; left
        obtain ⟨k, hk1, hk2⟩ := h3
        exact ⟨k, hk1, hk2⟩
      · right; right; right
        obtain ⟨f, hf1, hf2⟩ := h4
        exact ⟨f, hf1, List.elem_iff.mp hf2⟩
    · rintro (⟨s, hs, hd⟩ | ⟨l, hl, hne⟩ | ⟨k, hk1, hk2⟩ | ⟨f, hf1, hf2⟩)
      · left; left; left; rw [hs]; simpa using hd
      · left; left; right; rw [hl]; simpa using hne
      · left; right; exact ⟨k, hk1, hk2⟩
      · right; exact ⟨f, hf1, List.elem_iff.mpr hf2⟩
  · intro hnl
    unfold ToolExec.getToolDangerLevel SpecSide.specLevel
    have hmatch : (match t.safety with
        | Option.some s => s.dangerLevel
        | Option.none => Option.none) = Option.none := hnl
    rw [hmatch, hB]

/-- C9 witness: the classification theorem applied to the concrete
`delete_repo` descriptor under the default config. -/
theorem C9_danger_classification_witness :
    (ToolExec.isDangerousTool ToolExec.defaultExecConfig Instances.delRepoTool = true
       ↔ SpecSide.DangerousSpec ToolExec.defaultExecConfig Instances.delRepoTool)
    ∧ ToolExec.getToolDangerLevel ToolExec.defaultExecConfig Instances.delRepoTool
        = SpecSide.specLevel ToolExec.defaultExecConfig Instances.delRepoTool
    ∧ ToolExec.getToolDangerLevel ToolExec.defaultExecConfig Instances.delRepoTool
        = ToolExec.DangerLevel.high :=
  ⟨(C9_danger_classification ToolExec.defaultExecConfig Instances.delRepoTool).1,
   (C9_danger_classification ToolExec.defaultExecConfig Instances.delRepoTool).2 rfl,
   rfl⟩

/-- C10 counterexample: with the base executor's default hook, the
MODIFY-classified tool `update_file` called with `{mode:'read'}` is
denied — yet the pre-confirmation state capture dispatches
`callTool("srv","update_file",{mode:'read'})` to the hub: exactly the
requested server, tool and arguments (`replace(/delete|modify/i,'get')`
leaves the name unchanged and the `mode` override coincides with the
caller's argument), refuting "never dispatches the requested tool call
to the hub". -/
theorem C10_requested_call_dispatched_counterexample :
    Instances.uEnv.confirm = ToolExec.defaultGetUserConfirmation
    ∧ (ToolExec.executeTool Instances.uEnv "srv" "update_file"
          [("mode", JVal.str "read")]).2 =
        [{ serverName := "srv", toolName := "update_file"
           args := [("mode", JVal.str "read")] }]
    ∧ (ToolExec.executeTool Instances.uEnv "srv" "update_file"
          [("mode", JVal.str "read")]).1 =
        { success := false, data := Option.none
          error := Option.some "User denied dangerous operation"
          missingFields := Option.none, rollbackError := Option.none } :=
  ⟨rfl, rfl, rfl⟩

/-- C10 (amended): with the base executor (hook not overridden, i.e. the
default always-false `getUserConfirmation`), every call whose descriptor
requires confirmation returns `{success:false, error:'User denied
dangerous operation'}` and the call is never dispatched through the
post-validation dispatch — though the pre-confirmation state capture may
still probe the hub, and for MODIFY/DELETE-pattern names not containing
`delete` or `modify` that probe targets the requested tool itself. -/
theorem C10_default_deny_amended :
    ∀ (env : ToolExec.ExecEnv) (serverName toolName : String)
      (args : List (String × JVal)) (tool : ToolExec.McpTool),
      env.confirm = ToolExec.defaultGetUserConfirmation →
      ToolExec.getToolSchema env.schemas serverName toolName = Option.some tool →
      ToolExec.requiresConfirmation env.cfg env.schemas serverName toolName = true →
      0 < env.cfg.maxRetries →
      (ToolExec.executeTool env serverName toolName args).1 =
        { success := false, data := Option.none
          error := Option.some "User denied dangerous operation"
          missingFields := Option.none, rollbackError := Option.none } := by
  intro env sn tn args tool hdef hschema hreq hfuel
  have h := ToolExec.denied_exec env sn tn args tool hschema hreq
    (by rw [hdef]; rfl) hfuel
  rw [h]

/-- C10 witness: the amended theorem applied to `delete_repo` under the
default hook. -/
theorem C10_default_deny_amended_witness :
    (ToolExec.executeTool Instances.s4Env "github" "delete_repo"
        [("repo", JVal.str "r")]).1 =
      { success := false, data := Option.none
        error := Option.some "User denied dangerous operation"
        missingFields := Option.none, rollbackError := Option.none } :=
  C10_default_deny_amended Instances.s4Env "github" "delete_repo"
    [("repo", JVal.str "r")] Instances.delRepoTool rfl rfl (by decide) (by decide)

end McpSpec
